import Mathlib

/-!
Shallow embedding of the blog backend (Express + Mongoose) core:
the credential service (backend/src/services/users.js), the post query
service (backend/src/services/posts.js), the user routes
(routes/users.js), the post routes (routes/posts.js), the JWT middleware
(middleware/jwt.js) and the startup sequence (index.js).

Stores are lists of documents; MongoDB ObjectIds are modelled as `Nat`,
timestamps as `Nat`.  A JS value that may be `undefined` is an `Option`.
-/

namespace Blog

/-- Model of `bcrypt.hash(password, 10)`: an executable stand-in for the
salted one-way hash.  Only two properties of it are relied on: hashing is
deterministic and a hash is distinguishable from the plaintext. -/
def bcryptHash (password : String) : String :=
  "$2b$10$" ++ password

/-- Model of `bcrypt.compare(data, hash)` when `hash` is a string:
true exactly when `hash` is the hash of `data`. -/
def bcryptCompare (password hash : String) : Bool :=
  hash == bcryptHash password

/-- Model of `bcrypt.compare(data, hash)` on a JS value that may be
`undefined`: the node bcrypt library rejects with
"data and hash arguments required" when `hash` is `null`/`undefined`. -/
def bcryptCompareJs (password : String) (hash : Option String) : Except String Bool :=
  match hash with
  | none => .error "data and hash arguments required"
  | some h => .ok (bcryptCompare password h)

/-- A stored User document (db/models/user.js via `createUser`): the schema
paths are `username`, `email`, `passwordHash`.  The `password` field models
the JS property access `user.password`: no such key is ever stored, so it
reads as `undefined` (`none`). -/
structure UserDoc where
  _id : Nat
  username : String
  email : String
  passwordHash : String
  password : Option String := none
  deriving Repr, DecidableEq

/-- Input to `createUser` (`req.body` of the signup route). -/
structure NewUserInput where
  username : String
  email : String
  password : String
  deriving Repr, DecidableEq

/-- `createUser({username, email, password})` from services/users.js:
hashes the password with cost factor 10 and saves
`new User({username, email, passwordHash})`.  `freshId` models the
system-generated ObjectId. -/
def createUser (db : List UserDoc) (freshId : Nat) (input : NewUserInput) :
    UserDoc × List UserDoc :=
  let user : UserDoc :=
    { _id := freshId
      username := input.username
      email := input.email
      passwordHash := bcryptHash input.password }
  (user, db ++ [user])

/-- `findByUserName(username)` from services/users.js:
`User.findOne({username})`, the first match or `null`. -/
def findByUserName (db : List UserDoc) (username : String) : Option UserDoc :=
  db.find? (fun u => u.username == username)

/-- `findUserByEmail(email)` from services/users.js. -/
def findUserByEmail (db : List UserDoc) (email : String) : Option UserDoc :=
  db.find? (fun u => u.email == email)

/-- `findUserId(userName)` from services/users.js:
`userId ? userId._id : null`. -/
def findUserId (db : List UserDoc) (userName : String) : Option Nat :=
  (findByUserName db userName).map (fun u => u._id)

/-- `deleteUser(username)` from services/users.js: `User.deleteOne`. -/
def deleteUser (db : List UserDoc) (username : String) : List UserDoc :=
  match db.find? (fun u => u.username == username) with
  | none => db
  | some u => db.erase u

/-- `validatePassword(email, password)` from services/users.js, faithfully
including its use of `user.password` (a key the schema never stores) as the
hash argument of `bcrypt.compare`.  `.ok none` models returning `false`. -/
def validatePassword (db : List UserDoc) (email password : String) :
    Except String (Option UserDoc) :=
  match findUserByEmail db email with
  | none => .ok none
  | some user =>
    match bcryptCompareJs password user.password with
    | .error e => .error e
    | .ok true => .ok (some user)
    | .ok false => .ok none

/-- The `userWithoutPassword` object built by `loginUser` via
`const \x7bpasswordHash, ...userWithoutPassword\x7d = user.toObject()`. -/
structure SafeUser where
  _id : Nat
  username : String
  email : String
  deriving Repr, DecidableEq

/-- Dropping the `passwordHash` key by rest-destructuring. -/
def stripPasswordHash (u : UserDoc) : SafeUser :=
  { _id := u._id, username := u.username, email := u.email }

/-- The JWT minted by `jwt.sign({id, username}, JWT_SECRET, ...)`. -/
structure JwtToken where
  id : Nat
  username : String
  secret : String
  deriving Repr, DecidableEq

/-- Result of `loginUser`: either `{ok:false, message}` or
`{ok:true, user, token}`. -/
inductive LoginResult
  | failure (message : String)
  | success (user : SafeUser) (token : JwtToken)
  deriving Repr, DecidableEq

/-- `loginUser(userName, password)` from services/users.js: looks the user
up by username; on a missing user or a failed hash comparison returns the
one generic failure object; on success mints a token and returns the user
without `passwordHash`. -/
def loginUser (db : List UserDoc) (jwtSecret : String) (userName password : String) :
    LoginResult :=
  match findByUserName db userName with
  | none => .failure "Invalid username or password"
  | some user =>
    if bcryptCompare password user.passwordHash then
      .success (stripPasswordHash user)
        { id := user._id, username := user.username, secret := jwtSecret }
    else
      .failure "Invalid username or password"

/-- A serialized JSON response body, as a flat list of key/value pairs
(enough structure to decide which keys an external response carries). -/
def serializeUserDoc (u : UserDoc) : List (String × String) :=
  [("_id", toString u._id), ("username", u.username), ("email", u.email),
   ("passwordHash", u.passwordHash)]

/-- Serialization of the `passwordHash`-stripped user object. -/
def serializeSafeUser (u : SafeUser) : List (String × String) :=
  [("_id", toString u._id), ("username", u.username), ("email", u.email)]

/-- An HTTP response: status code plus serialized JSON body. -/
structure HttpResponse where
  status : Nat
  body : List (String × String)
  deriving Repr, DecidableEq

/-- `POST /api/v1/user/signup` handler from routes/users.js: rejects a
duplicate username, otherwise creates the user and responds 201 with the
`passwordHash`-stripped object. -/
def signupHandler (db : List UserDoc) (freshId : Nat) (input : NewUserInput) :
    HttpResponse × List UserDoc :=
  match findByUserName db input.username with
  | some _ => ({ status := 400, body := [("error", "Username already exists")] }, db)
  | none =>
    let created := createUser db freshId input
    ({ status := 201, body := serializeSafeUser (stripPasswordHash created.1) },
     created.2)

/-- `POST /api/v1/user/login` handler from routes/users.js: a failed login
becomes 401 with the service's message; a successful one becomes 200 with
the stripped user and the token. -/
def loginHandler (db : List UserDoc) (jwtSecret : String) (username password : String) :
    HttpResponse :=
  match loginUser db jwtSecret username password with
  | .failure message => { status := 401, body := [("error", message)] }
  | .success user token =>
    { status := 200
      body := serializeSafeUser user ++ [("token", toString token.id ++ token.username)] }

/-- `GET /api/v1/user/:id` handler from routes/users.js (public user lookup
by username): 404 when absent, otherwise `res.json(user)` with the looked-up
document serialized as-is — no field is stripped before serialization. -/
def getUserHandler (db : List UserDoc) (username : String) : HttpResponse :=
  match findByUserName db username with
  | none => { status := 404, body := [("error", "User not found")] }
  | some user => { status := 200, body := serializeUserDoc user }

/-- The process environment, as read through `process.env`. -/
structure Env where
  jwtSecretVar : Option String
  databaseUrlVar : Option String
  deriving Repr, DecidableEq

/-- The observable server state after startup: whether `app.listen` was
reached, and the module-level `_requireAuth` of middleware/jwt.js (the JS
source declares `let _requireAuth = null`, assigned only by the exported
JWT-middleware initializer; `some s` holds the secret it captured). -/
structure ServerState where
  listening : Bool
  jwtMiddleware : Option String
  deriving Repr, DecidableEq

/-- The exported JWT-middleware initializer of middleware/jwt.js: throws
when `JWT_SECRET` is absent, otherwise builds the express-jwt middleware
from the secret. -/
def initJwtMiddleware (env : Env) : Except String String :=
  match env.jwtSecretVar with
  | none => .error "JWT_SECRET environment variable is required"
  | some s => .ok s

/-- `initDatabase()` from db/init.js: throws when `DATABASE_URL` is absent,
otherwise connects. -/
def initDatabase (env : Env) : Except String Unit :=
  match env.databaseUrlVar with
  | none => .error "DATABASE_URL environment variable is required"
  | some _ => .ok ()

/-- The startup sequence of backend/src/index.js: `loadConfig()` (loads
.env files, validates nothing), `initDatabase()`, then `app.listen`.
No module in the repository ever calls the JWT-middleware initializer, so
`_requireAuth` is still `null` when the server starts listening. -/
def startupSequence (env : Env) : Except String ServerState := do
  let _ ← initDatabase env
  .ok { listening := true, jwtMiddleware := none }

/-- `requireAuth(req, res, next)` from middleware/jwt.js: the wrapper throws
at request time while `_requireAuth` is `null`; once set, it runs the
express-jwt verification (summarized here as success). -/
def requireAuth (st : ServerState) : Except String Unit :=
  match st.jwtMiddleware with
  | none =>
    .error "JWT middleware not initialized. Call initializeJwtMiddleware() first."
  | some _ => .ok ()

/-- A stored Post document (db/models/post.js): `title` and `author` are
required schema paths, `contents` is an optional String path, `tags` is an
array-of-strings path (defaulting to `[]`), and `timestamps: true`
maintains `createdAt`/`updatedAt`. -/
structure PostDoc where
  _id : Nat
  title : String
  author : Nat
  contents : Option String
  tags : List String
  createdAt : Nat
  updatedAt : Nat
  deriving Repr, DecidableEq

/-- The `{title, author, contents, tags}` object handed to `createPost` /
`updatePost`; each field may be `undefined`. -/
structure PostInput where
  title : Option String := none
  author : Option Nat := none
  contents : Option String := none
  tags : Option (List String) := none
  deriving Repr, DecidableEq

/-- Mongoose `ValidationError`, carrying the paths whose `required`
validator failed (`error.errors.<path>.kind = "required"`). -/
inductive DbError
  | validation (fields : List String)
  deriving Repr, DecidableEq

/-- Mongoose's save-time `required` check for a String path
(`SchemaString.checkRequired`): a missing value fails, and so does the
empty string (the check demands a string of positive length). -/
def stringRequiredOk (v : Option String) : Bool :=
  match v with
  | none => false
  | some s => !(s == "")

/-- The paths of `postSchema` whose save-time `required` validator fails on
the input: `title` when absent or empty, `author` (an ObjectId path) when
absent. -/
def missingRequired (input : PostInput) : List String :=
  (if stringRequiredOk input.title then [] else ["title"]) ++
    (if input.author.isNone then ["author"] else [])

/-- `createPost({title, author, contents, tags})` from services/posts.js:
`new Post({...}).save()`, with the schema validators run at save time
(`title` and `author` required — for the String path `title` an empty
string also fails the required check; `tags` defaults to the empty
array). -/
def createPost (db : List PostDoc) (freshId now : Nat) (input : PostInput) :
    Except DbError (PostDoc × List PostDoc) :=
  match input.title, input.author with
  | some title, some author =>
    if title = "" then .error (.validation (missingRequired input))
    else
      let post : PostDoc :=
        { _id := freshId
          title := title
          author := author
          contents := input.contents
          tags := input.tags.getD []
          createdAt := now
          updatedAt := now }
      .ok (post, db ++ [post])
  | _, _ => .error (.validation (missingRequired input))

/-- The `$match` filters the service is invoked with: `\x7b\x7d`,
`\x7bauthor\x7d`, or `\x7btags: tag\x7d` (array membership). -/
inductive PostQuery
  | all
  | byAuthor (author : Nat)
  | byTag (tag : String)
  deriving Repr, DecidableEq

/-- MongoDB match semantics for the three filters used. -/
def matchesQuery (q : PostQuery) (p : PostDoc) : Bool :=
  match q with
  | .all => true
  | .byAuthor a => p.author == a
  | .byTag t => p.tags.contains t

/-- The `\x7bsortBy, sortOrder\x7d` options object; route query parameters
that were absent arrive as `undefined`. -/
structure ListOptions where
  sortBy : Option String := none
  sortOrder : Option String := none
  deriving Repr, DecidableEq

/-- The value of the dynamically named sort field `\x7b[sortBy]: ...\x7d`
on a Post document; `none` for a name that is not a (numeric) document
field, which BSON orders below every present value. -/
def sortFieldValue (field : String) (p : PostDoc) : Option Nat :=
  if field = "createdAt" then some p.createdAt
  else if field = "updatedAt" then some p.updatedAt
  else if field = "_id" then some p._id
  else if field = "author" then some p.author
  else none

/-- BSON comparison on a possibly missing numeric field:
missing sorts below every present value. -/
def bsonLe (x y : Option Nat) : Bool :=
  match x, y with
  | none, _ => true
  | some _, none => false
  | some a, some b => decide (a ≤ b)

/-- The ordering `$sort: \x7b[sortBy]: sortOrder === "descending" ? -1 : 1\x7d`
imposes on documents. -/
def sortRel (field : String) (descending : Bool) (p q : PostDoc) : Prop :=
  if descending then bsonLe (sortFieldValue field q) (sortFieldValue field p) = true
  else bsonLe (sortFieldValue field p) (sortFieldValue field q) = true

instance (field : String) (descending : Bool) : DecidableRel (sortRel field descending) :=
  fun p q => by unfold sortRel; infer_instance

/-- The `$sort` stage, as a stable comparison sort on the named field. -/
def sortPosts (field : String) (descending : Bool) (posts : List PostDoc) :
    List PostDoc :=
  List.insertionSort (sortRel field descending) posts

/-- A post as returned by the aggregation of the current `listPosts`:
after `$lookup` + `$set \x7bauthor: $arrayElemAt [authorDetails.username, 0]\x7d`
+ `$project \x7bauthorDetails: 0\x7d`, the `author` field holds the first
matching user's username — or is absent (`none`) when no user matched,
since `$arrayElemAt` past the end yields a missing value. -/
structure PostView where
  _id : Nat
  title : String
  author : Option String
  contents : Option String
  tags : List String
  createdAt : Nat
  updatedAt : Nat
  deriving Repr, DecidableEq

/-- The `$lookup`/`$set`/`$project` tail of the current `listPosts`
pipeline, applied to one document. -/
def resolveAuthor (users : List UserDoc) (p : PostDoc) : PostView :=
  { _id := p._id
    title := p.title
    author := (users.find? (fun u => u._id == p.author)).map (fun u => u.username)
    contents := p.contents
    tags := p.tags
    createdAt := p.createdAt
    updatedAt := p.updatedAt }

/-- `listPosts(query, {sortBy, sortOrder})` from services/posts.js (the
current variant): `$match`, `$sort` (defaults `createdAt` descending),
`$lookup` on users, `$set` of `author` to the looked-up username,
`$project` away `authorDetails`. -/
def listPosts (users : List UserDoc) (db : List PostDoc) (query : PostQuery)
    (opts : ListOptions) : List PostView :=
  let sortBy := opts.sortBy.getD "createdAt"
  let descending := opts.sortOrder.getD "descending" == "descending"
  ((sortPosts sortBy descending (db.filter (matchesQuery query))).map
    (resolveAuthor users))

/-- `listAllPosts(options)` from services/posts.js. -/
def listAllPosts (users : List UserDoc) (db : List PostDoc) (opts : ListOptions) :
    List PostView :=
  listPosts users db .all opts

/-- `listPostsByAuthor(author, options)` from services/posts.js. -/
def listPostsByAuthor (users : List UserDoc) (db : List PostDoc) (author : Nat)
    (opts : ListOptions) : List PostView :=
  listPosts users db (.byAuthor author) opts

/-- `listPostsByTag(tags, options)` from services/posts.js. -/
def listPostsByTag (users : List UserDoc) (db : List PostDoc) (tag : String)
    (opts : ListOptions) : List PostView :=
  listPosts users db (.byTag tag) opts

/-- `getPostById(postId)` from services/posts.js (current variant):
`findById().populate("author", "username")`, then
`author: postObj.author?.username || postObj.author` — the populated
author's username when the reference resolves, `null` (the populated value)
otherwise. -/
def getPostById (users : List UserDoc) (db : List PostDoc) (postId : Nat) :
    Option PostView :=
  match db.find? (fun p => p._id == postId) with
  | none => none
  | some post => some (resolveAuthor users post)

/-- The effect of `findOneAndUpdate`'s `$set \x7btitle, author, contents,
tags\x7d` on the matched document.  Mongoose strips keys whose value is
`undefined` out of an update, so a field absent from the input is not
written and the stored value survives; `timestamps: true` refreshes
`updatedAt`.  The re-run `required` validators cannot fire: stripping means
a required path is either overwritten with a present value or untouched. -/
def applySetUpdate (now : Nat) (input : PostInput) (p : PostDoc) : PostDoc :=
  { p with
    title := input.title.getD p.title
    author := input.author.getD p.author
    contents := match input.contents with
      | some c => some c
      | none => p.contents
    tags := input.tags.getD p.tags
    updatedAt := now }

/-- Replace the first document matching `_id = postId`. -/
def updateFirst (postId : Nat) (f : PostDoc → PostDoc) : List PostDoc → List PostDoc
  | [] => []
  | p :: rest =>
    if p._id == postId then f p :: rest else p :: updateFirst postId f rest

/-- `updatePost(postId, {title, author, contents, tags})` from
services/posts.js: `findOneAndUpdate({_id}, {$set: {...}}, {new: true,
runValidators: true})` — updates the first match and returns the updated
document, or `null` when no document matches. -/
def updatePost (db : List PostDoc) (now postId : Nat) (input : PostInput) :
    Option PostDoc × List PostDoc :=
  match db.find? (fun p => p._id == postId) with
  | none => (none, db)
  | some p =>
    (some (applySetUpdate now input p), updateFirst postId (applySetUpdate now input) db)

/-- The result object of `Post.deleteOne`. -/
structure DeleteResult where
  deletedCount : Nat
  deriving Repr, DecidableEq

/-- Remove the first document matching `_id = postId`. -/
def removeFirst (postId : Nat) : List PostDoc → List PostDoc
  | [] => []
  | p :: rest =>
    if p._id == postId then rest else p :: removeFirst postId rest

/-- `deletePost(postId)` from services/posts.js: `Post.deleteOne({_id})`
removes at most one document and reports how many were deleted. -/
def deletePost (db : List PostDoc) (postId : Nat) : DeleteResult × List PostDoc :=
  match db.find? (fun p => p._id == postId) with
  | none => ({ deletedCount := 0 }, db)
  | some _ => ({ deletedCount := 1 }, removeFirst postId db)

/-- A post as returned by the first (superseded) `listPosts` aggregation
variant: `$project \x7btitle: 1, author: "$authorDetails", contents: 1,
tags: 1\x7d` after `$unwind`, so `author` is a full user document and the
timestamps are projected away. -/
structure PostViewV1 where
  _id : Nat
  title : String
  author : UserDoc
  contents : Option String
  tags : List String
  deriving Repr, DecidableEq

/-- The first `listPosts` variant: `$match`, `$sort`, `$lookup` of all
matching users into `authorDetails`, `$unwind "$authorDetails"` (one output
document per matching user; a document whose `authorDetails` is empty is
dropped), `$project` with `author: "$authorDetails"`. -/
def listPostsV1 (users : List UserDoc) (db : List PostDoc) (query : PostQuery)
    (opts : ListOptions) : List PostViewV1 :=
  let sortBy := opts.sortBy.getD "createdAt"
  let descending := opts.sortOrder.getD "descending" == "descending"
  (sortPosts sortBy descending (db.filter (matchesQuery query))).flatMap
    (fun p =>
      (users.filter (fun u => u._id == p.author)).map
        (fun u =>
          { _id := p._id
            title := p.title
            author := u
            contents := p.contents
            tags := p.tags }))

/-- `listAllPosts` over the first variant. -/
def listAllPostsV1 (users : List UserDoc) (db : List PostDoc) (opts : ListOptions) :
    List PostViewV1 :=
  listPostsV1 users db .all opts

/-- `listPostsByAuthor` over the first variant. -/
def listPostsByAuthorV1 (users : List UserDoc) (db : List PostDoc) (author : Nat)
    (opts : ListOptions) : List PostViewV1 :=
  listPostsV1 users db (.byAuthor author) opts

/-- `listPostsByTag` over the first variant. -/
def listPostsByTagV1 (users : List UserDoc) (db : List PostDoc) (tag : String)
    (opts : ListOptions) : List PostViewV1 :=
  listPostsV1 users db (.byTag tag) opts

/-! Sample documents used by concrete evaluations. -/

/-- The signup body of the spec's end-to-end example. -/
def aliceInput : NewUserInput :=
  { username := "alice", email := "a@x.com", password := "P@ss1" }

/-- The User document stored by `createUser` for that signup. -/
def aliceDoc : UserDoc :=
  (createUser [] 1 aliceInput).1

/-- A sample stored Post. -/
def oldPost : PostDoc :=
  { _id := 1, title := "old title", author := 7, contents := some "old contents",
    tags := ["a", "b"], createdAt := 10, updatedAt := 10 }

/-- An update body that resupplies title, author and contents but omits
`tags` (the route only requires the first three). -/
def updateOmittingTags : PostInput :=
  { title := some "new title", author := some 7,
    contents := some "new contents", tags := none }

/-- Users created by `createUser` never carry a `password` key. -/
theorem createUser_stores_no_password_key
    (db : List UserDoc) (freshId : Nat) (input : NewUserInput) :
    ((createUser db freshId input).1).password = none :=
  rfl

/-- C1: the public user-lookup (`GET /api/v1/user/:id`) serializes the
stored document as-is, so for the user stored by signup it answers 200 with
a body containing the `passwordHash` field — while the signup response for
the same user strips it. -/
theorem userLookup_response_contains_passwordHash :
    (getUserHandler [aliceDoc] "alice").status = 200 ∧
    ("passwordHash", bcryptHash "P@ss1") ∈ (getUserHandler [aliceDoc] "alice").body ∧
    (∀ kv ∈ (signupHandler [] 1 aliceInput).1.body, kv.1 ≠ "passwordHash") := by
  decide

/-- C3 counterexample: an input whose `title` and `author` are both
present (`title = some ""`) still fails with a `ValidationError` reporting
the `title` path, because Mongoose's save-time `required` check rejects an
empty string — so "fails exactly when title or author is missing" is false
of the program. -/
theorem createPost_empty_title_present_fails_cex :
    createPost [] 1 2 { title := some "", author := some 7,
                        contents := none, tags := none } =
      .error (.validation ["title"]) ∧
    ({ title := some "", author := some 7, contents := none,
       tags := none } : PostInput).title ≠ none ∧
    ({ title := some "", author := some 7, contents := none,
       tags := none } : PostInput).author ≠ none :=
  ⟨rfl, by decide, by decide⟩

/-- C3 amended: `createPost` fails with a `ValidationError` exactly when
`title` is missing or empty, or `author` is missing; whenever `title` is
present and nonempty and `author` is present it succeeds, whatever
`contents` and `tags` are (in particular with both absent). -/
theorem createPost_validation_iff_missing_or_empty
    (db : List PostDoc) (freshId now : Nat) (input : PostInput) :
    ((∃ e, createPost db freshId now input = .error e) ↔
      (input.title = none ∨ input.title = some "" ∨ input.author = none)) ∧
    (∀ t a, t ≠ "" → ∃ post rest,
      createPost db freshId now
        { title := some t, author := some a, contents := input.contents,
          tags := input.tags } = .ok (post, rest)) := by
  constructor
  · constructor
    · rintro ⟨e, he⟩
      by_contra hcon
      push_neg at hcon
      obtain ⟨ht, hte, ha⟩ := hcon
      cases hT : input.title with
      | none => exact ht hT
      | some t =>
        cases hA : input.author with
        | none => exact ha hA
        | some a =>
          have htne : t ≠ "" := by
            intro h
            exact hte (hT.trans (by rw [h]))
          simp [createPost, hT, hA, htne] at he
    · intro h
      refine ⟨.validation (missingRequired input), ?_⟩
      rcases h with h | h | h
      · cases hA : input.author <;> simp [createPost, h, hA]
      · cases hA : input.author <;> simp [createPost, h, hA]
      · cases hT : input.title with
        | none => simp [createPost, hT, h]
        | some t =>
          by_cases hte : t = "" <;> simp [createPost, hT, h, hte]
  · intro t a ht
    have hok : createPost db freshId now
        { title := some t, author := some a, contents := input.contents,
          tags := input.tags } =
      .ok ({ _id := freshId, title := t, author := a, contents := input.contents,
             tags := input.tags.getD [], createdAt := now, updatedAt := now },
        db ++ [{ _id := freshId, title := t, author := a,
                 contents := input.contents, tags := input.tags.getD [],
                 createdAt := now, updatedAt := now }]) := by
      simp [createPost, ht]
    exact ⟨_, _, hok⟩

theorem createPost_validation_iff_missing_or_empty_witness :
    ∃ post rest, createPost [] 1 2
      { title := some "Hello", author := some 7, contents := none, tags := none } =
        .ok (post, rest) :=
  (createPost_validation_iff_missing_or_empty [] 1 2
    { title := none, author := none, contents := none, tags := none }).2
    "Hello" 7 (by decide)

/-- C4 counterexample: updating the stored post with a body that omits
`tags` returns a post whose tag list is still the previous one (nonempty),
because Mongoose strips the `undefined` `tags` key from the `$set` — full
replacement does not happen. -/
theorem updatePost_omitted_tags_survive_cex :
    (updatePost [oldPost] 20 1 updateOmittingTags).1 =
      some { _id := 1, title := "new title", author := 7,
             contents := some "new contents", tags := ["a", "b"],
             createdAt := 10, updatedAt := 20 } ∧
    ((updatePost [oldPost] 20 1 updateOmittingTags).1.map (fun p => p.tags)) =
      some oldPost.tags ∧
    oldPost.tags ≠ [] := by
  decide

/-- C4 amended: `updatePost` replaces exactly the fields present in the
input and refreshes `updatedAt`; an absent field keeps its stored value, so
a previous tag list survives an update that omits `tags`. -/
theorem updatePost_replaces_only_supplied_fields
    (db : List PostDoc) (now postId : Nat) (input : PostInput) (p : PostDoc)
    (hfind : db.find? (fun q => q._id == postId) = some p) :
    (updatePost db now postId input).1 = some
      { _id := p._id
        title := input.title.getD p.title
        author := input.author.getD p.author
        contents := match input.contents with
          | some c => some c
          | none => p.contents
        tags := input.tags.getD p.tags
        createdAt := p.createdAt
        updatedAt := now } := by
  unfold updatePost
  rw [hfind]
  rfl

theorem updatePost_replaces_only_supplied_fields_witness :
    (updatePost [oldPost] 20 1 updateOmittingTags).1 = some
      { _id := oldPost._id
        title := updateOmittingTags.title.getD oldPost.title
        author := updateOmittingTags.author.getD oldPost.author
        contents := match updateOmittingTags.contents with
          | some c => some c
          | none => oldPost.contents
        tags := updateOmittingTags.tags.getD oldPost.tags
        createdAt := oldPost.createdAt
        updatedAt := 20 } :=
  updatePost_replaces_only_supplied_fields [oldPost] 20 1 updateOmittingTags oldPost
    (by decide)

/-- C5: a login with a username that is not in the store and a login with a
stored username but a password failing the hash comparison return the very
same failure object, `ok:false` with message "Invalid username or
password". -/
theorem login_failure_causes_indistinguishable
    (db : List UserDoc) (secret : String) (u1 p1 u2 p2 : String) (user2 : UserDoc)
    (h1 : findByUserName db u1 = none)
    (h2 : findByUserName db u2 = some user2)
    (h3 : bcryptCompare p2 user2.passwordHash = false) :
    loginUser db secret u1 p1 = .failure "Invalid username or password" ∧
    loginUser db secret u2 p2 = .failure "Invalid username or password" ∧
    loginUser db secret u1 p1 = loginUser db secret u2 p2 := by
  refine ⟨?_, ?_, ?_⟩ <;> simp [loginUser, h1, h2, h3]

theorem login_failure_causes_indistinguishable_witness :
    loginUser [aliceDoc] "secret" "nonexistent" "anything" =
      .failure "Invalid username or password" ∧
    loginUser [aliceDoc] "secret" "alice" "wrong" =
      .failure "Invalid username or password" ∧
    loginUser [aliceDoc] "secret" "nonexistent" "anything" =
      loginUser [aliceDoc] "secret" "alice" "wrong" :=
  login_failure_causes_indistinguishable [aliceDoc] "secret"
    "nonexistent" "anything" "alice" "wrong" aliceDoc
    (by decide) (by decide) (by decide)

/-- C7: with `JWT_SECRET` absent (and a database configured) the startup
sequence of index.js still reaches `app.listen` — the repository never
invokes the JWT-middleware initializer, which is the only place that checks
the secret — and each protected request then fails lazily inside the
`requireAuth` wrapper; the initializer itself would have rejected this
configuration. -/
theorem startup_serves_requests_without_jwt_secret :
    startupSequence { jwtSecretVar := none,
                      databaseUrlVar := some "mongodb://localhost/blog" } =
      .ok { listening := true, jwtMiddleware := none } ∧
    requireAuth { listening := true, jwtMiddleware := none } =
      .error "JWT middleware not initialized. Call initializeJwtMiddleware() first." ∧
    initJwtMiddleware { jwtSecretVar := none,
                        databaseUrlVar := some "mongodb://localhost/blog" } =
      .error "JWT_SECRET environment variable is required" := by
  refine ⟨rfl, rfl, rfl⟩

/-- C8: `deletePost` reports a deletion count where 0 means the id was
absent; deleting an absent id twice yields count 0 both times and leaves
the store unchanged both times. -/
theorem deletePost_idempotent_on_absent_id
    (db : List PostDoc) (postId : Nat) (habs : ∀ p ∈ db, p._id ≠ postId) :
    (∀ store : List PostDoc,
      ((deletePost store postId).1.deletedCount = 0 ↔ ∀ p ∈ store, p._id ≠ postId)) ∧
    (deletePost db postId).1.deletedCount = 0 ∧
    (deletePost db postId).2 = db ∧
    (deletePost (deletePost db postId).2 postId).1.deletedCount = 0 ∧
    (deletePost (deletePost db postId).2 postId).2 = db := by
  have hiff : ∀ store : List PostDoc,
      ((deletePost store postId).1.deletedCount = 0 ↔ ∀ p ∈ store, p._id ≠ postId) := by
    intro store
    cases hf : store.find? (fun p => p._id == postId) with
    | none =>
      constructor
      · intro _ p hp hpid
        have := List.find?_eq_none.mp hf p hp
        simp [hpid] at this
      · intro _
        simp [deletePost, hf]
    | some p =>
      have hd : deletePost store postId =
          ({ deletedCount := 1 }, removeFirst postId store) := by
        simp [deletePost, hf]
      rw [hd]
      constructor
      · intro h
        simp at h
      · intro h
        have hpmem : p ∈ store := List.mem_of_find?_eq_some hf
        have hpid := List.find?_some hf
        have hpeq : p._id = postId := by simpa using hpid
        exact absurd hpeq (h p hpmem)
  have hfnone : db.find? (fun p => p._id == postId) = none := by
    apply List.find?_eq_none.mpr
    intro p hp
    simpa using habs p hp
  have h1 : deletePost db postId = ({ deletedCount := 0 }, db) := by
    simp [deletePost, hfnone]
  refine ⟨hiff, ?_, ?_, ?_, ?_⟩ <;> simp [h1]

theorem deletePost_idempotent_on_absent_id_witness :
    (deletePost [oldPost] 99).1.deletedCount = 0 ∧
    (deletePost [oldPost] 99).2 = [oldPost] ∧
    (deletePost (deletePost [oldPost] 99).2 99).1.deletedCount = 0 ∧
    (deletePost (deletePost [oldPost] 99).2 99).2 = [oldPost] :=
  (deletePost_idempotent_on_absent_id [oldPost] 99 (by decide)).2

/-- C9: `validatePassword` reads `user.password`, a key `createUser` never
stores (the hash lives under `passwordHash`), so for any store of
`createUser`-made users and any candidate password it never returns a
user: the bcrypt comparison against the missing key cannot succeed. -/
theorem validatePassword_never_returns_user
    (db : List UserDoc) (hdb : ∀ u ∈ db, u.password = none)
    (email pw : String) (u : UserDoc) :
    validatePassword db email pw ≠ .ok (some u) := by
  unfold validatePassword
  cases hf : findUserByEmail db email with
  | none => simp
  | some user =>
    have hmem : user ∈ db := List.mem_of_find?_eq_some hf
    simp [bcryptCompareJs, hdb user hmem]

theorem validatePassword_never_returns_user_witness :
    validatePassword [aliceDoc] "a@x.com" "P@ss1" ≠ Except.ok (some aliceDoc) :=
  validatePassword_never_returns_user [aliceDoc] (by decide) "a@x.com" "P@ss1" aliceDoc

/-- A stored user referenced by the sample posts. -/
def bobUser : UserDoc :=
  { _id := 7, username := "bob", email := "b@x.com", passwordHash := "h" }

/-- Every element of a `listPosts` result is the author-resolved view of a
stored document. -/
theorem mem_of_mem_listPosts (users : List UserDoc) (db : List PostDoc)
    (q : PostQuery) (opts : ListOptions) (v : PostView)
    (hv : v ∈ listPosts users db q opts) :
    ∃ p ∈ db, v = resolveAuthor users p := by
  simp only [listPosts, sortPosts, List.mem_map] at hv
  obtain ⟨p, hp, rfl⟩ := hv
  have hp2 : p ∈ db.filter (matchesQuery q) :=
    (List.perm_insertionSort _ _).mem_iff.mp hp
  exact ⟨p, List.mem_of_mem_filter hp2, rfl⟩

/-- When some stored user matches a post's author reference, the resolved
view's author is the username of a stored user whose `_id` is exactly the
post's `author` reference. -/
theorem resolveAuthor_mem_username (users : List UserDoc) (p : PostDoc)
    (h : ∃ u ∈ users, u._id = p.author) :
    ∃ u ∈ users, u._id = p.author ∧
      (resolveAuthor users p).author = some u.username := by
  obtain ⟨u, hu, hid⟩ := h
  have hsome : (users.find? (fun v => v._id == p.author)).isSome := by
    rw [List.find?_isSome]
    exact ⟨u, hu, by simp [hid]⟩
  obtain ⟨w, hw⟩ := Option.isSome_iff_exists.mp hsome
  have hw1 := List.find?_some hw
  have hwid : w._id = p.author := by simpa using hw1
  exact ⟨w, List.mem_of_find?_eq_some hw, hwid, by simp [resolveAuthor, hw]⟩

/-- C2: when every stored post's author reference resolves to a stored
user, every result of the four read operations is the view of a stored
post and carries as `author` the username string of a stored user whose
`_id` equals that post's `author` reference — never the raw reference
id. -/
theorem read_ops_resolve_author_to_username
    (users : List UserDoc) (db : List PostDoc)
    (hres : ∀ p ∈ db, ∃ u ∈ users, u._id = p.author)
    (opts : ListOptions) (a : Nat) (t : String) (postId : Nat) :
    (∀ v ∈ listAllPosts users db opts, ∃ p ∈ db, v = resolveAuthor users p ∧
      ∃ u ∈ users, u._id = p.author ∧ v.author = some u.username) ∧
    (∀ v ∈ listPostsByAuthor users db a opts, ∃ p ∈ db, v = resolveAuthor users p ∧
      ∃ u ∈ users, u._id = p.author ∧ v.author = some u.username) ∧
    (∀ v ∈ listPostsByTag users db t opts, ∃ p ∈ db, v = resolveAuthor users p ∧
      ∃ u ∈ users, u._id = p.author ∧ v.author = some u.username) ∧
    (∀ v, getPostById users db postId = some v →
      ∃ p ∈ db, p._id = postId ∧ v = resolveAuthor users p ∧
        ∃ u ∈ users, u._id = p.author ∧ v.author = some u.username) := by
  have hlist : ∀ (q : PostQuery) (v : PostView), v ∈ listPosts users db q opts →
      ∃ p ∈ db, v = resolveAuthor users p ∧
        ∃ u ∈ users, u._id = p.author ∧ v.author = some u.username := by
    intro q v hv
    obtain ⟨p, hp, rfl⟩ := mem_of_mem_listPosts users db q opts v hv
    exact ⟨p, hp, rfl, resolveAuthor_mem_username users p (hres p hp)⟩
  refine ⟨fun v hv => hlist .all v hv, fun v hv => hlist (.byAuthor a) v hv,
    fun v hv => hlist (.byTag t) v hv, ?_⟩
  intro v hv
  unfold getPostById at hv
  cases hf : db.find? (fun p => p._id == postId) with
  | none => rw [hf] at hv; exact absurd hv (by simp)
  | some post =>
    rw [hf] at hv
    have hpmem : post ∈ db := List.mem_of_find?_eq_some hf
    have hf1 := List.find?_some hf
    have hpid : post._id = postId := by simpa using hf1
    have hveq : v = resolveAuthor users post := by
      injection hv with h
      exact h.symm
    rw [hveq]
    exact ⟨post, hpmem, hpid, rfl, resolveAuthor_mem_username users post (hres post hpmem)⟩

theorem read_ops_resolve_author_to_username_witness :
    (∀ v ∈ listAllPosts [bobUser] [oldPost] { sortBy := none, sortOrder := none },
      ∃ p ∈ [oldPost], v = resolveAuthor [bobUser] p ∧
        ∃ u ∈ [bobUser], u._id = p.author ∧ v.author = some u.username) ∧
    (∀ v ∈ listPostsByAuthor [bobUser] [oldPost] 7 { sortBy := none, sortOrder := none },
      ∃ p ∈ [oldPost], v = resolveAuthor [bobUser] p ∧
        ∃ u ∈ [bobUser], u._id = p.author ∧ v.author = some u.username) ∧
    (∀ v ∈ listPostsByTag [bobUser] [oldPost] "a" { sortBy := none, sortOrder := none },
      ∃ p ∈ [oldPost], v = resolveAuthor [bobUser] p ∧
        ∃ u ∈ [bobUser], u._id = p.author ∧ v.author = some u.username) ∧
    (∀ v, getPostById [bobUser] [oldPost] 1 = some v →
      ∃ p ∈ [oldPost], p._id = 1 ∧ v = resolveAuthor [bobUser] p ∧
        ∃ u ∈ [bobUser], u._id = p.author ∧ v.author = some u.username) :=
  read_ops_resolve_author_to_username [bobUser] [oldPost]
    (by intro p hp; refine ⟨bobUser, by simp, ?_⟩; cases hp with
        | head => rfl
        | tail _ h => cases h)
    { sortBy := none, sortOrder := none } 7 "a" 1

/-- Every element of a first-variant listing comes from a stored document
whose author reference matched some stored user, and keeps that document's
id. -/
theorem mem_of_mem_listPostsV1 (users : List UserDoc) (db : List PostDoc)
    (q : PostQuery) (opts : ListOptions) (v : PostViewV1)
    (hv : v ∈ listPostsV1 users db q opts) :
    ∃ x ∈ db, ∃ u ∈ users, u._id = x.author ∧ v._id = x._id := by
  simp only [listPostsV1, sortPosts, List.mem_flatMap, List.mem_map] at hv
  obtain ⟨x, hx, u, hu, rfl⟩ := hv
  have hx2 : x ∈ db.filter (matchesQuery q) :=
    (List.perm_insertionSort _ _).mem_iff.mp hx
  have hu2 : u ∈ users.filter (fun w => w._id == x.author) := hu
  have humem : u ∈ users := List.mem_of_mem_filter hu2
  have huid : u._id = x.author := by
    have := List.of_mem_filter hu2
    simpa using this
  exact ⟨x, List.mem_of_mem_filter hx2, u, humem, huid, rfl⟩

/-- C10: in the first ($unwind) aggregation variant, a stored post whose
author reference matches no stored user is dropped from all three listings
(assuming post ids are unique, no returned view carries its id); in
particular, deleting the referenced user makes that author's posts vanish
from every listing. -/
theorem listPostsV1_omits_orphan_authors
    (users : List UserDoc) (db : List PostDoc) (opts : ListOptions)
    (p : PostDoc) (_hp : p ∈ db)
    (horphan : ∀ u ∈ users, u._id ≠ p.author)
    (hid : ∀ q ∈ db, q._id = p._id → q = p)
    (a : Nat) (t : String) :
    (∀ v ∈ listAllPostsV1 users db opts, v._id ≠ p._id) ∧
    (∀ v ∈ listPostsByAuthorV1 users db a opts, v._id ≠ p._id) ∧
    (∀ v ∈ listPostsByTagV1 users db t opts, v._id ≠ p._id) := by
  have hgen : ∀ (q : PostQuery) (v : PostViewV1), v ∈ listPostsV1 users db q opts →
      v._id ≠ p._id := by
    intro q v hv hvp
    obtain ⟨x, hx, u, hu, huid, hvid⟩ := mem_of_mem_listPostsV1 users db q opts v hv
    have hxp : x = p := hid x hx (hvp ▸ hvid.symm)
    exact horphan u hu (hxp ▸ huid)
  exact ⟨fun v hv => hgen .all v hv, fun v hv => hgen (.byAuthor a) v hv,
    fun v hv => hgen (.byTag t) v hv⟩

theorem listPostsV1_omits_orphan_authors_witness :
    (∀ v ∈ listAllPostsV1 [] [oldPost] { sortBy := none, sortOrder := none },
      v._id ≠ oldPost._id) ∧
    (∀ v ∈ listPostsByAuthorV1 [] [oldPost] 7 { sortBy := none, sortOrder := none },
      v._id ≠ oldPost._id) ∧
    (∀ v ∈ listPostsByTagV1 [] [oldPost] "a" { sortBy := none, sortOrder := none },
      v._id ≠ oldPost._id) :=
  listPostsV1_omits_orphan_authors [] [oldPost]
    { sortBy := none, sortOrder := none } oldPost (by simp)
    (by intro u hu; cases hu) (by decide) 7 "a"

theorem bsonLe_total (x y : Option Nat) : bsonLe x y = true ∨ bsonLe y x = true := by
  cases x <;> cases y <;> simp [bsonLe] <;> omega

theorem bsonLe_trans {x y z : Option Nat} (h1 : bsonLe x y = true)
    (h2 : bsonLe y z = true) : bsonLe x z = true := by
  cases x <;> cases y <;> cases z <;> simp [bsonLe] at * <;> omega

instance (field : String) (d : Bool) : IsTotal PostDoc (sortRel field d) := by
  constructor
  intro a b
  cases d
  · simpa [sortRel] using
      bsonLe_total (sortFieldValue field a) (sortFieldValue field b)
  · simpa [sortRel] using
      bsonLe_total (sortFieldValue field b) (sortFieldValue field a)

instance (field : String) (d : Bool) : IsTrans PostDoc (sortRel field d) := by
  constructor
  intro a b c hab hbc
  cases d
  · simp only [sortRel, Bool.false_eq_true, if_false] at *
    exact bsonLe_trans hab hbc
  · simp only [sortRel, if_true] at *
    exact bsonLe_trans hbc hab

theorem sortRel_createdAt_asc (p q : PostDoc) :
    sortRel "createdAt" false p q ↔ p.createdAt ≤ q.createdAt := by
  simp [sortRel, bsonLe, sortFieldValue]

theorem sortRel_createdAt_desc (p q : PostDoc) :
    sortRel "createdAt" true p q ↔ q.createdAt ≤ p.createdAt := by
  simp [sortRel, bsonLe, sortFieldValue]

/-- C6: over a store whose posts were created in order (strictly increasing
`createdAt`), `listAllPosts` returns the creation order for
`sortOrder: "ascending"`, its reverse for `sortOrder: "descending"`, and
with no sort options behaves exactly as the descending (newest-first)
order, which is the default. -/
theorem listAllPosts_sort_orders
    (users : List UserDoc) (db : List PostDoc)
    (hasc : db.Pairwise (fun p q => p.createdAt < q.createdAt)) :
    listAllPosts users db { sortBy := some "createdAt", sortOrder := some "ascending" } =
      db.map (resolveAuthor users) ∧
    listAllPosts users db { sortBy := some "createdAt", sortOrder := some "descending" } =
      (db.map (resolveAuthor users)).reverse ∧
    listAllPosts users db { sortBy := none, sortOrder := none } =
      listAllPosts users db { sortBy := some "createdAt", sortOrder := some "descending" } := by
  have hfilter : db.filter (matchesQuery .all) = db :=
    List.filter_eq_self.mpr (fun a _ => rfl)
  have hsorted_asc : List.Sorted (sortRel "createdAt" false) db :=
    hasc.imp (fun h => (sortRel_createdAt_asc _ _).mpr (Nat.le_of_lt h))
  have hasc_eq : List.insertionSort (sortRel "createdAt" false) db = db :=
    hsorted_asc.insertionSort_eq
  have hdesc_eq : List.insertionSort (sortRel "createdAt" true) db = db.reverse := by
    haveI : IsAntisymm PostDoc (fun p q : PostDoc => q.createdAt < p.createdAt) :=
      ⟨fun a b h1 h2 => absurd h1 (Nat.lt_asymm h2)⟩
    apply List.eq_of_perm_of_sorted
      (r := fun p q : PostDoc => q.createdAt < p.createdAt)
    · exact (List.perm_insertionSort _ _).trans db.reverse_perm.symm
    · have hs : List.Sorted (sortRel "createdAt" true)
          (List.insertionSort (sortRel "createdAt" true) db) :=
        List.sorted_insertionSort _ _
      have hne : (List.insertionSort (sortRel "createdAt" true) db).Pairwise
          (fun p q => p.createdAt ≠ q.createdAt) := by
        refine ((List.perm_insertionSort (sortRel "createdAt" true) db).pairwise_iff
          ?_).mpr (hasc.imp (fun h => Nat.ne_of_lt h))
        intro a b h
        exact h.symm
      refine (hs.and hne).imp ?_
      intro a b hab
      obtain ⟨hle, hne'⟩ := hab
      have hle' : b.createdAt ≤ a.createdAt := (sortRel_createdAt_desc _ _).mp hle
      exact Nat.lt_of_le_of_ne hle' (fun h => hne' h.symm)
    · exact List.pairwise_reverse.mpr hasc
  refine ⟨?_, ?_, rfl⟩
  · show ((sortPosts "createdAt" false (db.filter (matchesQuery .all))).map
      (resolveAuthor users)) = db.map (resolveAuthor users)
    rw [hfilter]
    unfold sortPosts
    rw [hasc_eq]
  · show ((sortPosts "createdAt" true (db.filter (matchesQuery .all))).map
      (resolveAuthor users)) = (db.map (resolveAuthor users)).reverse
    rw [hfilter]
    unfold sortPosts
    rw [hdesc_eq, List.map_reverse]

/-- Posts created in order P1, P2, P3 (ascending timestamps). -/
def postA : PostDoc :=
  { _id := 11, title := "P1", author := 7, contents := none, tags := [],
    createdAt := 1, updatedAt := 1 }

def postB : PostDoc :=
  { _id := 12, title := "P2", author := 7, contents := none, tags := [],
    createdAt := 2, updatedAt := 2 }

def postC : PostDoc :=
  { _id := 13, title := "P3", author := 7, contents := none, tags := [],
    createdAt := 3, updatedAt := 3 }

theorem listAllPosts_sort_orders_witness :
    listAllPosts [bobUser] [postA, postB, postC]
        { sortBy := some "createdAt", sortOrder := some "ascending" } =
      [postA, postB, postC].map (resolveAuthor [bobUser]) ∧
    listAllPosts [bobUser] [postA, postB, postC]
        { sortBy := some "createdAt", sortOrder := some "descending" } =
      ([postA, postB, postC].map (resolveAuthor [bobUser])).reverse ∧
    listAllPosts [bobUser] [postA, postB, postC]
        { sortBy := none, sortOrder := none } =
      listAllPosts [bobUser] [postA, postB, postC]
        { sortBy := some "createdAt", sortOrder := some "descending" } :=
  listAllPosts_sort_orders [bobUser] [postA, postB, postC] (by decide)

end Blog
